import Mathlib

/-!
Verification of the schema-derivation subsystem of arrow2-derive.

The development shallowly embeds the two source files:
* `src/field.rs` — the `ArrowField` capability (mapping Rust value types to
  Arrow `DataType` descriptors and a nullability flag) together with the
  `ArrowEnableVecForType` marker licensing `Vec<T>` as a field type;
* `arrow2_convert_derive/src/input.rs` — `Input::new`, the normalisation of a
  `DeriveInput` (struct shape, attributes, directive string) into the model
  consumed by code generation.

Rust trait resolution over the closed set of built-in types is embedded as
recursive functions over a grammar `RustTy` of the types the crate provides
implementations for; a missing impl is `Option.none`.  The `abort!` calls of
the derive macro are embedded as `Except.error` with one error constructor per
abort site.
-/

namespace Arrow2

/-- Arrow time units, as in `arrow2::datatypes::TimeUnit`. -/
inductive TimeUnit
  | second
  | millisecond
  | microsecond
  | nanosecond
  deriving DecidableEq

/-- The subset of `arrow2::datatypes::DataType` producible by `src/field.rs`.
`list` inlines the boxed `Field` triple `(name, data_type, is_nullable)`. -/
inductive DataType
  | uint8
  | uint16
  | uint32
  | uint64
  | int8
  | int16
  | int32
  | int64
  | float32
  | float64
  | boolean
  | utf8
  | binary
  | date32
  | timestamp (unit : TimeUnit) (tz : Option String)
  | list (itemName : String) (itemType : DataType) (itemNullable : Bool)
  deriving DecidableEq

/-- An `arrow2::datatypes::Field`: the named-field descriptor triple. -/
structure Field where
  name : String
  dataType : DataType
  nullable : Bool
  deriving DecidableEq

/-- The closed grammar of Rust types that `src/field.rs` gives `ArrowField`
or `ArrowEnableVecForType` implementations for: the built-in leaves plus the
`Option<T>` and `Vec<T>` compositions. -/
inductive RustTy
  | u8
  | u16
  | u32
  | u64
  | i8
  | i16
  | i32
  | i64
  | f32
  | f64
  | bool
  | string
  | naiveDate
  | naiveDateTime
  | option (t : RustTy)
  | vec (t : RustTy)
  deriving DecidableEq

/-- `ArrowField::is_nullable` for each type: the trait default is `false`;
only the `Option<T>` impl overrides it to `true`. -/
def isNullable : RustTy → Bool
  | .option _ => true
  | _ => false

mutual

/-- `ArrowField::data_type` as resolved by Rust over the impls of
`src/field.rs`; `none` means no impl exists.  `Vec<u8>` has its dedicated
impl returning `Binary` (coherent with the blanket `Vec<T>` impl because `u8`
is never granted `ArrowEnableVecForType`); the blanket `Vec<T>` impl requires
`T : ArrowField + ArrowEnableVecForType` and yields
`List(T::field("item"))`. -/
def dataTypeOf : RustTy → Option DataType
  | .u8 => some .uint8
  | .u16 => some .uint16
  | .u32 => some .uint32
  | .u64 => some .uint64
  | .i8 => some .int8
  | .i16 => some .int16
  | .i32 => some .int32
  | .i64 => some .int64
  | .f32 => some .float32
  | .f64 => some .float64
  | .bool => some .boolean
  | .string => some .utf8
  | .naiveDate => some .date32
  | .naiveDateTime => some (.timestamp .nanosecond none)
  | .option t => dataTypeOf t
  | .vec t =>
    if t = .u8 then some .binary
    else if enableVec t then
      (dataTypeOf t).map (fun d => DataType.list "item" d (isNullable t))
    else none

/-- Whether a type has the `ArrowEnableVecForType` marker trait: granted by
`arrow_enable_vec_for_type!` to `String`, `bool`, `NaiveDateTime`,
`NaiveDate` and `Vec<u8>`, and by the two blanket impls to `Option<T>` and
`Vec<T>` whenever `T : ArrowField + ArrowEnableVecForType`. -/
def enableVec : RustTy → Bool
  | .string => true
  | .bool => true
  | .naiveDate => true
  | .naiveDateTime => true
  | .option t => (dataTypeOf t).isSome && enableVec t
  | .vec t => t = .u8 || ((dataTypeOf t).isSome && enableVec t)
  | _ => false

end

/-- `ArrowField::field(name)`, i.e. `Field::new(name, data_type, is_nullable)`,
defined when the type has an `ArrowField` impl. -/
def fieldOf (t : RustTy) (name : String) : Option Field :=
  (dataTypeOf t).map (fun d => { name := name, dataType := d, nullable := isNullable t })

/-! Embedding of `arrow2_convert_derive/src/input.rs`. -/

/-- `TraitsToDerive` of `input.rs`. -/
inductive TraitsToDerive
  | fieldOnly
  | serializeOnly
  | deserializeOnly
  | all
  deriving DecidableEq

/-- One error constructor per `abort!` site of `Input::new`:
`unsupportedShape` for the non-struct abort, `conflictingDirectives` for the
second-exclusive-keyword abort, `unknownDirectiveValue` for the unrecognised
token abort (carrying the raw token), and `malformedDirective` for the
unexpected-attribute-shape abort. -/
inductive DeriveError
  | unsupportedShape
  | conflictingDirectives
  | unknownDirectiveValue (value : String)
  | malformedDirective
  deriving DecidableEq

/-- A `syn::Field`: its optional name and its declared type expression
(kept as an uninterpreted string, as `Input::new` never inspects it). -/
structure SynField where
  ident : Option String
  ty : String
  deriving DecidableEq

/-- `syn::Fields`: the shape of a struct body. -/
inductive StructFields
  | named (fs : List SynField)
  | unnamed (fs : List SynField)
  | unit
  deriving DecidableEq

/-- `s.fields.iter().cloned().collect::<Vec<_>>()`. -/
def StructFields.toList : StructFields → List SynField
  | .named fs => fs
  | .unnamed fs => fs
  | .unit => []

/-- `syn::Data`: struct, enum or union. -/
inductive Data
  | dstruct (fields : StructFields)
  | denum
  | dunion
  deriving DecidableEq

/-- A successfully parsed `syn::Meta`, by shape, each carrying its path. -/
inductive ParsedMeta
  | pathOnly (path : String)
  | listMeta (path : String)
  | nameValueStr (path : String) (value : String)
  | nameValueOther (path : String)
  deriving DecidableEq

/-- `meta.path()` rendered as a string, compared by `is_ident`. -/
def ParsedMeta.path : ParsedMeta → String
  | .pathOnly p => p
  | .listMeta p => p
  | .nameValueStr p _ => p
  | .nameValueOther p => p

/-- A raw attribute: either `parse_meta` succeeds with a `ParsedMeta`, or it
fails (`unparseable`, still carrying the attribute's key path). -/
inductive Attr
  | meta (m : ParsedMeta)
  | unparseable (path : String)
  deriving DecidableEq

/-- `syn::DeriveInput`: name, visibility (uninterpreted string), attribute
list, and data shape. -/
structure DeriveInput where
  ident : String
  vis : String
  attrs : List Attr
  data : Data
  deriving DecidableEq

/-- The `Input` struct produced by `Input::new`. -/
structure Input where
  name : String
  traitsToDerive : TraitsToDerive
  fields : List SynField
  visibility : String
  deriving DecidableEq

/-- The mutable state threaded through the attribute loop of `Input::new`:
`traits_to_derive` and the `derives` seen-list. -/
structure ParseState where
  traitsToDerive : TraitsToDerive
  derives : List String
  deriving DecidableEq

/-- Rust `str::split(',')` over the characters of a string: boundary at every
comma, so the empty string yields one empty piece and adjacent commas yield
empty pieces. -/
def splitCommaAux : List Char → List Char → List String
  | [], acc => [String.mk acc.reverse]
  | c :: cs, acc =>
    if c = ',' then String.mk acc.reverse :: splitCommaAux cs []
    else splitCommaAux cs (c :: acc)

/-- `string.value().split(',')` as a list of pieces. -/
def splitComma (s : String) : List String := splitCommaAux s.data []

/-- Rust `str::trim`: drop whitespace from both ends. -/
def trimString (s : String) : String :=
  String.mk (((s.data.dropWhile Char.isWhitespace).reverse.dropWhile Char.isWhitespace).reverse)

/-- Whether a raw token matches the first arm of the token `match`:
`"field_only" | "serialize_only" | "deserialize_only"` (no trimming). -/
def exclusiveKeyword (value : String) : Bool :=
  value = "field_only" || value = "serialize_only" || value = "deserialize_only"

/-- The body of the per-token loop of `Input::new`: a recognised keyword
aborts with `ConflictingDirectives` when `traits_to_derive` was already
narrowed away from `All`, otherwise sets the mode and pushes the trimmed
token onto `derives`; any other token aborts with the unexpected-value
error carrying the raw token. -/
def processValue (st : ParseState) (value : String) : Except DeriveError ParseState :=
  if exclusiveKeyword value then
    if st.traitsToDerive ≠ TraitsToDerive.all then
      .error .conflictingDirectives
    else
      let t : TraitsToDerive :=
        if value = "field_only" then .fieldOnly
        else if value = "serialize_only" then .serializeOnly
        else .deserializeOnly
      .ok { traitsToDerive := t, derives := st.derives ++ [trimString value] }
  else
    .error (.unknownDirectiveValue value)

/-- `for value in string.value().split(',') { ... }`, aborting at the first
error. -/
def processValues : ParseState → List String → Except DeriveError ParseState
  | st, [] => .ok st
  | st, v :: rest =>
    match processValue st v with
    | .error e => .error e
    | .ok st2 => processValues st2 rest

/-- One iteration of the attribute loop: attributes whose `parse_meta` fails
are skipped silently, as is any parsed meta whose path is not
`arrow2_convert`; an `arrow2_convert` name-value with a string literal has
its value split on `,` and processed token by token; any other
`arrow2_convert` meta shape aborts with the unexpected-attribute error. -/
def processAttr (st : ParseState) (a : Attr) : Except DeriveError ParseState :=
  match a with
  | .unparseable _ => .ok st
  | .meta m =>
    if m.path = "arrow2_convert" then
      match m with
      | .nameValueStr _ v => processValues st (splitComma v)
      | _ => .error .malformedDirective
    else .ok st

/-- `for attr in input.attrs { ... }`. -/
def processAttrs : ParseState → List Attr → Except DeriveError ParseState
  | st, [] => .ok st
  | st, a :: rest =>
    match processAttr st a with
    | .error e => .error e
    | .ok st2 => processAttrs st2 rest

/-- `Input::new`: abort with the structs-only error unless the data is a
struct (any struct shape), then run the attribute loop starting from
`TraitsToDerive::All`, then assemble the `Input`. -/
def Input.new (input : DeriveInput) : Except DeriveError Input :=
  match input.data with
  | .dstruct s =>
    match processAttrs { traitsToDerive := .all, derives := [] } input.attrs with
    | .error e => .error e
    | .ok st =>
      .ok { name := input.ident, traitsToDerive := st.traitsToDerive,
            fields := s.toList, visibility := input.vis }
  | _ => .error .unsupportedShape

/-! Helper lemmas. -/

/-- Within the closed grammar, every type granted `ArrowEnableVecForType`
also has an `ArrowField` impl: the leaf grants go to `ArrowField` types and
both blanket marker impls require `T : ArrowField`. -/
theorem enableVec_isSome (t : RustTy) (h : enableVec t = true) :
    (dataTypeOf t).isSome = true := by
  cases t with
  | option t2 =>
    have h2 : ((dataTypeOf t2).isSome && enableVec t2) = true := h
    simp only [Bool.and_eq_true] at h2
    exact h2.1
  | vec t2 =>
    have h2 : (decide (t2 = .u8) || ((dataTypeOf t2).isSome && enableVec t2)) = true := h
    simp only [Bool.or_eq_true, Bool.and_eq_true] at h2
    rcases h2 with h3 | h3
    · have ht : t2 = .u8 := of_decide_eq_true h3
      subst ht
      decide
    · obtain ⟨hs, he⟩ := h3
      show (dataTypeOf (RustTy.vec t2)).isSome = true
      have hv : dataTypeOf (RustTy.vec t2) =
          (if t2 = .u8 then some .binary
           else if enableVec t2 then
             (dataTypeOf t2).map (fun d => DataType.list "item" d (isNullable t2))
           else none) := rfl
      rw [hv]
      by_cases hu : t2 = .u8
      · simp [hu]
      · simp [hu, he, hs]
  | u8 => exact absurd h (by decide)
  | u16 => exact absurd h (by decide)
  | u32 => exact absurd h (by decide)
  | u64 => exact absurd h (by decide)
  | i8 => exact absurd h (by decide)
  | i16 => exact absurd h (by decide)
  | i32 => exact absurd h (by decide)
  | i64 => exact absurd h (by decide)
  | f32 => exact absurd h (by decide)
  | f64 => exact absurd h (by decide)
  | bool => decide
  | string => decide
  | naiveDate => decide
  | naiveDateTime => decide

/-! Claims about `src/field.rs`. -/

/-- C1: for every type T with an `ArrowField` impl, `Option<T>` has T's
`data_type`, `is_nullable` true regardless of T's own nullability, and the
same named-field descriptor as T would give at nullability `true`; in
particular `Option<Option<T>>` yields the same descriptor as `Option<T>`
(nullability collapses to one level). -/
theorem option_descriptor (t : RustTy) (n : String) (_h : (dataTypeOf t).isSome = true) :
    dataTypeOf (RustTy.option t) = dataTypeOf t ∧
    isNullable (RustTy.option t) = true ∧
    dataTypeOf (RustTy.option (RustTy.option t)) = dataTypeOf (RustTy.option t) ∧
    isNullable (RustTy.option (RustTy.option t)) = isNullable (RustTy.option t) ∧
    fieldOf (RustTy.option (RustTy.option t)) n = fieldOf (RustTy.option t) n :=
  ⟨rfl, rfl, rfl, rfl, rfl⟩

/-- Witness for C1 at T = `String`, field name `"item"`. -/
theorem option_descriptor_witness :
    (dataTypeOf RustTy.string).isSome = true ∧
    dataTypeOf (RustTy.option RustTy.string) = dataTypeOf RustTy.string ∧
    isNullable (RustTy.option RustTy.string) = true :=
  ⟨by decide,
   (option_descriptor RustTy.string "item" (by decide)).1,
   (option_descriptor RustTy.string "item" (by decide)).2.1⟩

/-- C2: for every T with both an `ArrowField` impl and the
`ArrowEnableVecForType` marker, `Vec<T>` has data type
`List(Field("item", T::data_type, T::is_nullable))` — the item field being
exactly `T::field("item")` — and is itself non-nullable. -/
theorem vec_descriptor (t : RustTy) (d : DataType)
    (hd : dataTypeOf t = some d) (he : enableVec t = true) :
    dataTypeOf (RustTy.vec t) = some (DataType.list "item" d (isNullable t)) ∧
    fieldOf t "item" = some { name := "item", dataType := d, nullable := isNullable t } ∧
    isNullable (RustTy.vec t) = false := by
  have ht : t ≠ RustTy.u8 := by
    rintro rfl
    exact absurd he (by decide)
  have hv : dataTypeOf (RustTy.vec t) =
      (if t = .u8 then some .binary
       else if enableVec t then
         (dataTypeOf t).map (fun d2 => DataType.list "item" d2 (isNullable t))
       else none) := rfl
  refine ⟨?_, ?_, rfl⟩
  · rw [hv]
    simp [ht, he, hd]
  · simp [fieldOf, hd]

/-- Witness for C2 at T = `String`. -/
theorem vec_descriptor_witness :
    dataTypeOf RustTy.string = some DataType.utf8 ∧ enableVec RustTy.string = true ∧
    dataTypeOf (RustTy.vec RustTy.string) =
      some (DataType.list "item" DataType.utf8 false) :=
  ⟨by decide, by decide,
   (vec_descriptor RustTy.string DataType.utf8 (by decide) (by decide)).1⟩

/-- C3: every built-in leaf maps to its fixed designated descriptor with
`is_nullable` false, and `Vec<u8>` maps to `Binary`, never to
`List(UInt8)`. -/
theorem builtin_leaf_descriptors :
    (dataTypeOf RustTy.u8 = some DataType.uint8 ∧
     dataTypeOf RustTy.u16 = some DataType.uint16 ∧
     dataTypeOf RustTy.u32 = some DataType.uint32 ∧
     dataTypeOf RustTy.u64 = some DataType.uint64 ∧
     dataTypeOf RustTy.i8 = some DataType.int8 ∧
     dataTypeOf RustTy.i16 = some DataType.int16 ∧
     dataTypeOf RustTy.i32 = some DataType.int32 ∧
     dataTypeOf RustTy.i64 = some DataType.int64 ∧
     dataTypeOf RustTy.f32 = some DataType.float32 ∧
     dataTypeOf RustTy.f64 = some DataType.float64 ∧
     dataTypeOf RustTy.bool = some DataType.boolean ∧
     dataTypeOf RustTy.string = some DataType.utf8 ∧
     dataTypeOf RustTy.naiveDate = some DataType.date32 ∧
     dataTypeOf RustTy.naiveDateTime = some (DataType.timestamp TimeUnit.nanosecond none)) ∧
    (isNullable RustTy.u8 = false ∧ isNullable RustTy.u16 = false ∧
     isNullable RustTy.u32 = false ∧ isNullable RustTy.u64 = false ∧
     isNullable RustTy.i8 = false ∧ isNullable RustTy.i16 = false ∧
     isNullable RustTy.i32 = false ∧ isNullable RustTy.i64 = false ∧
     isNullable RustTy.f32 = false ∧ isNullable RustTy.f64 = false ∧
     isNullable RustTy.bool = false ∧ isNullable RustTy.string = false ∧
     isNullable RustTy.naiveDate = false ∧ isNullable RustTy.naiveDateTime = false) ∧
    dataTypeOf (RustTy.vec RustTy.u8) = some DataType.binary ∧
    isNullable (RustTy.vec RustTy.u8) = false ∧
    dataTypeOf (RustTy.vec RustTy.u8) ≠ some (DataType.list "item" DataType.uint8 false) := by
  decide

/-- C4: for every T without the marker and distinct from `u8`, `Vec<T>` has
no `ArrowField` impl (resolution fails); among the built-in types exactly
`String`, `bool`, the two chrono types and `Vec<u8>` are granted the marker
as leaves — none of the ten numeric types is. -/
theorem vec_without_marker_fails :
    (∀ t : RustTy, enableVec t = false → t ≠ RustTy.u8 →
       dataTypeOf (RustTy.vec t) = none) ∧
    (enableVec RustTy.string = true ∧ enableVec RustTy.bool = true ∧
     enableVec RustTy.naiveDate = true ∧ enableVec RustTy.naiveDateTime = true ∧
     enableVec (RustTy.vec RustTy.u8) = true) ∧
    (enableVec RustTy.u8 = false ∧ enableVec RustTy.u16 = false ∧
     enableVec RustTy.u32 = false ∧ enableVec RustTy.u64 = false ∧
     enableVec RustTy.i8 = false ∧ enableVec RustTy.i16 = false ∧
     enableVec RustTy.i32 = false ∧ enableVec RustTy.i64 = false ∧
     enableVec RustTy.f32 = false ∧ enableVec RustTy.f64 = false) := by
  refine ⟨?_, by decide, by decide⟩
  intro t h hne
  have hv : dataTypeOf (RustTy.vec t) =
      (if t = .u8 then some .binary
       else if enableVec t then
         (dataTypeOf t).map (fun d => DataType.list "item" d (isNullable t))
       else none) := rfl
  rw [hv]
  simp [hne, h]

/-- Witness for C4 at T = `u16`. -/
theorem vec_without_marker_fails_witness :
    enableVec RustTy.u16 = false ∧ dataTypeOf (RustTy.vec RustTy.u16) = none :=
  ⟨by decide, vec_without_marker_fails.1 RustTy.u16 (by decide) (by decide)⟩

/-- C5 counterexample: the claimed biconditional fails at T = `u8`, since
`Vec<u8>` is granted the marker directly by `arrow_enable_vec_for_type!`
while `u8` itself is never granted it. -/
theorem enableVec_iff_counterexample :
    enableVec (RustTy.vec RustTy.u8) = true ∧ enableVec RustTy.u8 = false := by
  decide

/-- C5 amended: `Option<T>` has the marker exactly when T does; if T has the
marker so does `Vec<T>`; conversely a marked `Vec<T>` has a marked T except
in the single case T = `u8`. -/
theorem enableVec_transitivity (t : RustTy) :
    enableVec (RustTy.option t) = enableVec t ∧
    (enableVec t = true → enableVec (RustTy.vec t) = true) ∧
    (enableVec (RustTy.vec t) = true → enableVec t = true ∨ t = RustTy.u8) := by
  refine ⟨?_, ?_, ?_⟩
  · show ((dataTypeOf t).isSome && enableVec t) = enableVec t
    cases he : enableVec t with
    | false => simp
    | true => simp [enableVec_isSome t he]
  · intro he
    show (decide (t = .u8) || ((dataTypeOf t).isSome && enableVec t)) = true
    simp [he, enableVec_isSome t he]
  · intro hv
    have h2 : (decide (t = .u8) || ((dataTypeOf t).isSome && enableVec t)) = true := hv
    simp only [Bool.or_eq_true, Bool.and_eq_true] at h2
    rcases h2 with h3 | h3
    · exact Or.inr (of_decide_eq_true h3)
    · exact Or.inl h3.2

/-- Witness for C5 at T = `String`. -/
theorem enableVec_transitivity_witness :
    enableVec (RustTy.option RustTy.string) = enableVec RustTy.string ∧
    enableVec (RustTy.vec RustTy.string) = true :=
  ⟨(enableVec_transitivity RustTy.string).1,
   (enableVec_transitivity RustTy.string).2.1 (by decide)⟩

/-! Helper lemmas about the errors each stage of `Input::new` can raise. -/

/-- The token loop body raises only the conflict error or the unknown-value
error carrying the raw token. -/
theorem processValue_error (st : ParseState) (v : String) (e : DeriveError)
    (h : processValue st v = .error e) :
    e = DeriveError.conflictingDirectives ∨ e = DeriveError.unknownDirectiveValue v := by
  unfold processValue at h
  split at h
  · split at h
    · injection h with h2
      exact Or.inl h2.symm
    · exact absurd h (by simp)
  · injection h with h2
    exact Or.inr h2.symm

/-- The token loop over a directive string raises only the conflict error or
an unknown-value error carrying one of the tokens. -/
theorem processValues_error (vs : List String) :
    ∀ (st : ParseState) (e : DeriveError), processValues st vs = .error e →
      e = DeriveError.conflictingDirectives ∨
      ∃ v, v ∈ vs ∧ e = DeriveError.unknownDirectiveValue v := by
  induction vs with
  | nil =>
    intro st e h
    exact absurd h (by simp [processValues])
  | cons v rest ih =>
    intro st e h
    have hm : processValues st (v :: rest) =
        (match processValue st v with
         | .error e2 => .error e2
         | .ok st2 => processValues st2 rest) := rfl
    rw [hm] at h
    cases hp : processValue st v with
    | error e2 =>
      rw [hp] at h
      injection h with h2
      subst h2
      rcases processValue_error st v e2 hp with h3 | h3
      · exact Or.inl h3
      · exact Or.inr ⟨v, List.mem_cons_self v rest, h3⟩
    | ok st2 =>
      rw [hp] at h
      rcases ih st2 e h with h3 | ⟨v2, hmem, h3⟩
      · exact Or.inl h3
      · exact Or.inr ⟨v2, List.mem_cons_of_mem v hmem, h3⟩

/-- One attribute step raises the malformed-directive error only for a parsed
`arrow2_convert` meta that is not a string name-value; all its other errors
come from the token loop. -/
theorem processAttr_error (st : ParseState) (a : Attr) (e : DeriveError)
    (h : processAttr st a = .error e) :
    ∃ m, a = Attr.meta m ∧ m.path = "arrow2_convert" ∧
      (e = DeriveError.malformedDirective → ∀ p v, m ≠ ParsedMeta.nameValueStr p v) ∧
      e ≠ DeriveError.unsupportedShape := by
  cases a with
  | unparseable p => exact absurd h (by simp [processAttr])
  | meta m =>
    have hunf : processAttr st (Attr.meta m) =
        (if m.path = "arrow2_convert" then
           match m with
           | ParsedMeta.nameValueStr _ v => processValues st (splitComma v)
           | _ => Except.error DeriveError.malformedDirective
         else Except.ok st) := rfl
    rw [hunf] at h
    by_cases hp : m.path = "arrow2_convert"
    · rw [if_pos hp] at h
      refine ⟨m, rfl, hp, ?_, ?_⟩
      · intro hmal p v hm
        subst hm
        rw [hmal] at h
        rcases processValues_error _ _ _ h with h3 | ⟨v2, _, h3⟩
        · exact absurd h3.symm (by simp)
        · exact absurd h3.symm (by simp)
      · cases m with
        | nameValueStr p v =>
          intro hsh
          rw [hsh] at h
          rcases processValues_error _ _ _ h with h3 | ⟨v2, _, h3⟩
          · exact absurd h3.symm (by simp)
          · exact absurd h3.symm (by simp)
        | pathOnly p =>
          injection h with h2
          simp [← h2]
        | listMeta p =>
          injection h with h2
          simp [← h2]
        | nameValueOther p =>
          injection h with h2
          simp [← h2]
    · rw [if_neg hp] at h
      exact absurd h (by simp)

/-- The attribute loop never raises the structs-only error. -/
theorem processAttrs_error_ne_shape (attrs : List Attr) :
    ∀ (st : ParseState) (e : DeriveError), processAttrs st attrs = .error e →
      e ≠ DeriveError.unsupportedShape := by
  induction attrs with
  | nil =>
    intro st e h
    exact absurd h (by simp [processAttrs])
  | cons a rest ih =>
    intro st e h
    have hm : processAttrs st (a :: rest) =
        (match processAttr st a with
         | .error e2 => .error e2
         | .ok st2 => processAttrs st2 rest) := rfl
    rw [hm] at h
    cases hp : processAttr st a with
    | error e2 =>
      rw [hp] at h
      injection h with h2
      subst h2
      obtain ⟨m, _, _, _, hne⟩ := processAttr_error st a e2 hp
      exact hne
    | ok st2 =>
      rw [hp] at h
      exact ih st2 e h

/-! Claims about `arrow2_convert_derive/src/input.rs`. -/

/-- C6 counterexample: with the recognized directive key and the empty string
value, `Input::new` aborts with the unknown-value error on the single empty
token produced by `split(',')`, instead of succeeding with mode `All`. -/
theorem empty_directive_counterexample :
    Input.new { ident := "Foo", vis := "pub",
                attrs := [Attr.meta (ParsedMeta.nameValueStr "arrow2_convert" "")],
                data := Data.dstruct StructFields.unit } =
      Except.error (DeriveError.unknownDirectiveValue "") := rfl

/-- C6 amended: splitting the empty directive value yields one empty token,
not zero, so derivation fails with the unknown-value error on `""` for every
struct input carrying that directive. -/
theorem empty_directive_errors (name vis : String) (fs : StructFields) :
    splitComma "" = [""] ∧
    Input.new { ident := name, vis := vis,
                attrs := [Attr.meta (ParsedMeta.nameValueStr "arrow2_convert" "")],
                data := Data.dstruct fs } =
      Except.error (DeriveError.unknownDirectiveValue "") :=
  ⟨rfl, rfl⟩

/-- C7 counterexample: on the directive value `"field_only, serialize_only"`
the second token keeps its leading space and is rejected as an unknown value,
rather than both tokens being accepted after trimming. -/
theorem trimmed_token_counterexample :
    Input.new { ident := "Foo", vis := "pub",
                attrs := [Attr.meta
                  (ParsedMeta.nameValueStr "arrow2_convert" "field_only, serialize_only")],
                data := Data.dstruct StructFields.unit } =
      Except.error (DeriveError.unknownDirectiveValue " serialize_only") := rfl

/-- C7 amended: token matching does not trim — a token is accepted only when
it is literally one of the three keywords; a token equal to a keyword only
after trimming is rejected with the unknown-value error carrying the raw
token (trimming is applied only to the seen-list entry). -/
theorem token_match_untrimmed (st : ParseState) (v : String) :
    (exclusiveKeyword v = false →
       processValue st v = .error (DeriveError.unknownDirectiveValue v)) ∧
    (exclusiveKeyword (trimString v) = true → trimString v ≠ v →
       processValue st v = .error (DeriveError.unknownDirectiveValue v)) ∧
    (∀ st2, processValue st v = .ok st2 → exclusiveKeyword v = true) := by
  refine ⟨?_, ?_, ?_⟩
  · intro h
    simp [processValue, h]
  · intro h1 h2
    have h3 : exclusiveKeyword v = false := by
      cases hk : exclusiveKeyword v with
      | false => rfl
      | true =>
        exfalso
        have hv : (v = "field_only" ∨ v = "serialize_only") ∨ v = "deserialize_only" := by
          simpa [exclusiveKeyword] using hk
        rcases hv with (hv | hv) | hv <;> (subst hv; exact h2 (by decide))
    simp [processValue, h3]
  · intro st2 hok
    cases hk : exclusiveKeyword v with
    | false => simp [processValue, hk] at hok
    | true => rfl

/-- Witness for C7 at the token with a leading space. -/
theorem token_match_untrimmed_witness :
    exclusiveKeyword (trimString " field_only") = true ∧
    trimString " field_only" ≠ " field_only" ∧
    processValue { traitsToDerive := .all, derives := [] } " field_only" =
      .error (DeriveError.unknownDirectiveValue " field_only") :=
  ⟨by decide, by decide,
   (token_match_untrimmed { traitsToDerive := .all, derives := [] }
     " field_only").2.1 (by decide) (by decide)⟩

/-- C8: once `traits_to_derive` is narrowed away from `All`, any further
exclusive keyword — identical or not — aborts with the conflict error; a
successful token step always starts from `All` and lands in one of the three
exclusive modes; and two attributes both saying `field_only` conflict. -/
theorem mode_exclusivity (st : ParseState) (v : String) :
    (st.traitsToDerive ≠ TraitsToDerive.all → exclusiveKeyword v = true →
       processValue st v = .error DeriveError.conflictingDirectives) ∧
    (∀ st2, processValue st v = .ok st2 →
       st.traitsToDerive = TraitsToDerive.all ∧
       (st2.traitsToDerive = TraitsToDerive.fieldOnly ∨
        st2.traitsToDerive = TraitsToDerive.serializeOnly ∨
        st2.traitsToDerive = TraitsToDerive.deserializeOnly)) ∧
    Input.new { ident := "Foo", vis := "pub",
                attrs := [Attr.meta (ParsedMeta.nameValueStr "arrow2_convert" "field_only"),
                          Attr.meta (ParsedMeta.nameValueStr "arrow2_convert" "field_only")],
                data := Data.dstruct StructFields.unit } =
      Except.error DeriveError.conflictingDirectives := by
  refine ⟨?_, ?_, rfl⟩
  · intro h1 h2
    simp [processValue, h2, h1]
  · intro st2 hok
    by_cases hk : exclusiveKeyword v = true
    · by_cases ha : st.traitsToDerive = TraitsToDerive.all
      · refine ⟨ha, ?_⟩
        simp [processValue, hk, ha] at hok
        rw [← hok]
        by_cases h1 : v = "field_only"
        · simp [h1]
        · by_cases h2 : v = "serialize_only"
          · simp [h1, h2]
          · simp [h1, h2]
      · simp [processValue, hk, ha] at hok
    · simp [processValue, hk] at hok

/-- Witness for C8: a second `field_only` after the mode was already set. -/
theorem mode_exclusivity_witness :
    processValue { traitsToDerive := TraitsToDerive.fieldOnly, derives := ["field_only"] }
      "field_only" = .error DeriveError.conflictingDirectives :=
  (mode_exclusivity { traitsToDerive := .fieldOnly, derives := ["field_only"] }
    "field_only").1 (by decide) (by decide)

/-- C9 counterexample: a tuple struct — a record shape without named
fields — is accepted by `Input::new` with its fields collected, not rejected
with the structs-only error. -/
theorem tuple_struct_counterexample :
    Input.new { ident := "Foo", vis := "pub", attrs := [],
                data := Data.dstruct (StructFields.unnamed [{ ident := none, ty := "i32" }]) } =
      Except.ok { name := "Foo", traitsToDerive := TraitsToDerive.all,
                  fields := [{ ident := none, ty := "i32" }], visibility := "pub" } := rfl

/-- C9 amended: the structs-only error is raised exactly for non-struct
inputs (enums and unions), before any directive processing; every struct
shape — named, tuple or unit — passes the shape check, and a successful
derivation collects the declared fields in order with the input's name and
visibility. -/
theorem shape_check (d : DeriveInput) :
    ((∀ fs, d.data ≠ Data.dstruct fs) → Input.new d = .error DeriveError.unsupportedShape) ∧
    (∀ fs, d.data = Data.dstruct fs →
       Input.new d ≠ .error DeriveError.unsupportedShape ∧
       ∀ inp, Input.new d = .ok inp →
         inp.fields = fs.toList ∧ inp.name = d.ident ∧ inp.visibility = d.vis) := by
  constructor
  · intro h
    cases hd : d.data with
    | dstruct fs => exact absurd hd (h fs)
    | denum => simp [Input.new, hd]
    | dunion => simp [Input.new, hd]
  · intro fs hd
    have hm : Input.new d =
        (match processAttrs { traitsToDerive := .all, derives := [] } d.attrs with
         | .error e => .error e
         | .ok st =>
           .ok { name := d.ident, traitsToDerive := st.traitsToDerive,
                 fields := fs.toList, visibility := d.vis }) := by
      simp [Input.new, hd]
    constructor
    · intro hcontra
      rw [hm] at hcontra
      cases hp : processAttrs { traitsToDerive := .all, derives := [] } d.attrs with
      | error e =>
        rw [hp] at hcontra
        injection hcontra with h2
        exact processAttrs_error_ne_shape d.attrs _ e hp h2
      | ok st =>
        rw [hp] at hcontra
        exact absurd hcontra (by simp)
    · intro inp hok
      rw [hm] at hok
      cases hp : processAttrs { traitsToDerive := .all, derives := [] } d.attrs with
      | error e =>
        rw [hp] at hok
        exact absurd hok (by simp)
      | ok st =>
        rw [hp] at hok
        injection hok with h2
        rw [← h2]
        exact ⟨rfl, rfl, rfl⟩

/-- A concrete enum derive input, for the C9 witness. -/
def enumInput : DeriveInput :=
  { ident := "E", vis := "pub", attrs := [], data := Data.denum }

/-- A concrete named-field struct derive input, for the C9 witness. -/
def pointInput : DeriveInput :=
  { ident := "Point", vis := "pub", attrs := [],
    data := Data.dstruct (StructFields.named
      [{ ident := some "x", ty := "i32" }, { ident := some "y", ty := "i32" }]) }

/-- Witness for C9: an enum input is rejected with the structs-only error,
and a named-field struct input passes the shape check. -/
theorem shape_check_witness :
    Input.new enumInput = Except.error DeriveError.unsupportedShape ∧
    Input.new pointInput ≠ Except.error DeriveError.unsupportedShape :=
  ⟨(shape_check enumInput).1 (fun _ h => Data.noConfusion h),
   ((shape_check pointInput).2 (StructFields.named
      [{ ident := some "x", ty := "i32" }, { ident := some "y", ty := "i32" }]) rfl).1⟩

/-- C10: an attribute whose content fails structured-meta parsing is skipped
silently even when its key is `arrow2_convert` — the state is unchanged and
derivation succeeds with mode `All` — while the malformed-directive error is
raised only for attributes that do parse as a meta with the `arrow2_convert`
path but are not a string name-value. -/
theorem unparsed_attr_skipped (st : ParseState) :
    processAttr st (Attr.unparseable "arrow2_convert") = .ok st ∧
    (∀ a, processAttr st a = .error DeriveError.malformedDirective →
       ∃ m, a = Attr.meta m ∧ m.path = "arrow2_convert" ∧
         ∀ p v, m ≠ ParsedMeta.nameValueStr p v) ∧
    Input.new { ident := "Foo", vis := "pub",
                attrs := [Attr.unparseable "arrow2_convert"],
                data := Data.dstruct StructFields.unit } =
      Except.ok { name := "Foo", traitsToDerive := TraitsToDerive.all,
                  fields := [], visibility := "pub" } := by
  refine ⟨rfl, ?_, rfl⟩
  intro a h
  obtain ⟨m, ha, hp, hmal, _⟩ := processAttr_error st a DeriveError.malformedDirective h
  exact ⟨m, ha, hp, hmal rfl⟩

/-- Witness for C10: a bare-path `arrow2_convert` attribute is a concrete
source of the malformed-directive error. -/
theorem unparsed_attr_skipped_witness :
    ∃ m, Attr.meta (ParsedMeta.pathOnly "arrow2_convert") = Attr.meta m ∧
      m.path = "arrow2_convert" ∧ ∀ p v, m ≠ ParsedMeta.nameValueStr p v :=
  (unparsed_attr_skipped { traitsToDerive := .all, derives := [] }).2.1
    (Attr.meta (ParsedMeta.pathOnly "arrow2_convert")) rfl

end Arrow2
